import Mathlib

/-!
Shallow embedding of the Segment webhook service (src/main.py) and proofs
about its filtering, buffering, statistics and session-aggregation logic.

Python values that can appear in a parsed JSON event document are modelled
by the inductive type PyVal.  Python dictionaries are modelled as ordered
association lists, matching the insertion-order semantics of dict.
Operations that can raise a Python exception are modelled in Except String.
Machine clock readings are passed explicitly: the ISO string produced by
datetime.now().isoformat() and the UTC instant of datetime.now(timezone.utc)
in integer microseconds since the Unix epoch.
-/

inductive PyVal where
  | none
  | bool (b : Bool)
  | int (n : Int)
  | str (s : String)
  | list (xs : List PyVal)
  | dict (xs : List (String × PyVal))

mutual

def PyVal.decEq : (a b : PyVal) → Decidable (a = b)
  | .none, .none => isTrue rfl
  | .bool a, .bool b =>
    match Bool.decEq a b with
    | isTrue h => isTrue (h ▸ rfl)
    | isFalse h => isFalse (fun hh => h (PyVal.bool.inj hh))
  | .int a, .int b =>
    match Int.decEq a b with
    | isTrue h => isTrue (h ▸ rfl)
    | isFalse h => isFalse (fun hh => h (PyVal.int.inj hh))
  | .str a, .str b =>
    match String.decEq a b with
    | isTrue h => isTrue (h ▸ rfl)
    | isFalse h => isFalse (fun hh => h (PyVal.str.inj hh))
  | .list xs, .list ys =>
    match PyVal.decEqList xs ys with
    | isTrue h => isTrue (h ▸ rfl)
    | isFalse h => isFalse (fun hh => h (PyVal.list.inj hh))
  | .dict xs, .dict ys =>
    match PyVal.decEqDict xs ys with
    | isTrue h => isTrue (h ▸ rfl)
    | isFalse h => isFalse (fun hh => h (PyVal.dict.inj hh))
  | .none, .bool _ => isFalse (fun h => PyVal.noConfusion h)
  | .none, .int _ => isFalse (fun h => PyVal.noConfusion h)
  | .none, .str _ => isFalse (fun h => PyVal.noConfusion h)
  | .none, .list _ => isFalse (fun h => PyVal.noConfusion h)
  | .none, .dict _ => isFalse (fun h => PyVal.noConfusion h)
  | .bool _, .none => isFalse (fun h => PyVal.noConfusion h)
  | .bool _, .int _ => isFalse (fun h => PyVal.noConfusion h)
  | .bool _, .str _ => isFalse (fun h => PyVal.noConfusion h)
  | .bool _, .list _ => isFalse (fun h => PyVal.noConfusion h)
  | .bool _, .dict _ => isFalse (fun h => PyVal.noConfusion h)
  | .int _, .none => isFalse (fun h => PyVal.noConfusion h)
  | .int _, .bool _ => isFalse (fun h => PyVal.noConfusion h)
  | .int _, .str _ => isFalse (fun h => PyVal.noConfusion h)
  | .int _, .list _ => isFalse (fun h => PyVal.noConfusion h)
  | .int _, .dict _ => isFalse (fun h => PyVal.noConfusion h)
  | .str _, .none => isFalse (fun h => PyVal.noConfusion h)
  | .str _, .bool _ => isFalse (fun h => PyVal.noConfusion h)
  | .str _, .int _ => isFalse (fun h => PyVal.noConfusion h)
  | .str _, .list _ => isFalse (fun h => PyVal.noConfusion h)
  | .str _, .dict _ => isFalse (fun h => PyVal.noConfusion h)
  | .list _, .none => isFalse (fun h => PyVal.noConfusion h)
  | .list _, .bool _ => isFalse (fun h => PyVal.noConfusion h)
  | .list _, .int _ => isFalse (fun h => PyVal.noConfusion h)
  | .list _, .str _ => isFalse (fun h => PyVal.noConfusion h)
  | .list _, .dict _ => isFalse (fun h => PyVal.noConfusion h)
  | .dict _, .none => isFalse (fun h => PyVal.noConfusion h)
  | .dict _, .bool _ => isFalse (fun h => PyVal.noConfusion h)
  | .dict _, .int _ => isFalse (fun h => PyVal.noConfusion h)
  | .dict _, .str _ => isFalse (fun h => PyVal.noConfusion h)
  | .dict _, .list _ => isFalse (fun h => PyVal.noConfusion h)

def PyVal.decEqList : (xs ys : List PyVal) → Decidable (xs = ys)
  | [], [] => isTrue rfl
  | [], _ :: _ => isFalse (fun h => List.noConfusion h)
  | _ :: _, [] => isFalse (fun h => List.noConfusion h)
  | x :: xs, y :: ys =>
    match PyVal.decEq x y with
    | isFalse h => isFalse (fun hh => h (List.cons.inj hh).1)
    | isTrue h1 =>
      match PyVal.decEqList xs ys with
      | isTrue h2 => isTrue (by rw [h1, h2])
      | isFalse h2 => isFalse (fun hh => h2 (List.cons.inj hh).2)

def PyVal.decEqDict : (xs ys : List (String × PyVal)) → Decidable (xs = ys)
  | [], [] => isTrue rfl
  | [], _ :: _ => isFalse (fun h => List.noConfusion h)
  | _ :: _, [] => isFalse (fun h => List.noConfusion h)
  | (k1, v1) :: xs, (k2, v2) :: ys =>
    match String.decEq k1 k2 with
    | isFalse h => isFalse (fun hh => h (congrArg Prod.fst (List.cons.inj hh).1))
    | isTrue hk =>
      match PyVal.decEq v1 v2 with
      | isFalse h => isFalse (fun hh => h (congrArg Prod.snd (List.cons.inj hh).1))
      | isTrue hv =>
        match PyVal.decEqDict xs ys with
        | isTrue h2 => isTrue (by rw [hk, hv, h2])
        | isFalse h2 => isFalse (fun hh => h2 (List.cons.inj hh).2)

end

instance : DecidableEq PyVal := PyVal.decEq

/-- An event document: a parsed JSON object, i.e. a Python dict with string
keys, modelled as an insertion-ordered association list. -/
def Event : Type := List (String × PyVal)

instance : DecidableEq Event := fun a b => PyVal.decEqDict a b

/-- Python truthiness for the modelled values. -/
def truthy : PyVal → Bool
  | .none => false
  | .bool b => b
  | .int n => n != 0
  | .str s => s != ""
  | .list xs => !xs.isEmpty
  | .dict xs => !xs.isEmpty

/-- dict.get(key, default) for string keys. -/
def dictGetD (xs : List (String × PyVal)) (k : String) (d : PyVal) : PyVal :=
  match xs.find? (fun p => p.1 == k) with
  | some p => p.2
  | Option.none => d

/-- key in dict, for a string key. -/
def hasKey (xs : List (String × PyVal)) (k : String) : Bool :=
  xs.any (fun p => p.1 == k)

/-- Python hashability: the atomic values are hashable, list and dict are not. -/
def pyHashable : PyVal → Bool
  | .list _ => false
  | .dict _ => false
  | _ => true

/-- When cs starts with the given prefix, return the remainder. -/
def stripPrefixChars : List Char → List Char → Option (List Char)
  | [], cs => some cs
  | _ :: _, [] => Option.none
  | p :: ps, c :: cs => if p == c then stripPrefixChars ps cs else Option.none

def charsContains (hay needle : List Char) : Bool :=
  match stripPrefixChars needle hay with
  | some _ => true
  | Option.none =>
    match hay with
    | [] => false
    | _ :: rest => charsContains rest needle

/-- Substring test, Python `pat in s` for strings. -/
def strContains (s pat : String) : Bool :=
  charsContains s.data pat.data

/-- Fuel-driven body of strReplace; the fuel starts at the length of the
string, and every step consumes at least one character. -/
def charsReplaceAux (old new : List Char) : Nat → List Char → List Char
  | 0, cs => cs
  | fuel + 1, cs =>
    match cs with
    | [] => []
    | c :: cs2 =>
      match stripPrefixChars old cs with
      | some rest => new ++ charsReplaceAux old new fuel rest
      | Option.none => c :: charsReplaceAux old new fuel cs2

/-- str.replace for a nonempty pattern (the source only ever replaces the
nonempty pattern Z): every non-overlapping occurrence, left to right. -/
def strReplace (s old new : String) : String :=
  String.mk (charsReplaceAux old.data new.data s.data.length s.data)

/-- ASCII lower-casing of one character; the fields the source lower-cases
are ASCII identifiers and event names. -/
def charLower (c : Char) : Char :=
  if 'A' ≤ c ∧ c ≤ 'Z' then Char.ofNat (c.toNat + 32) else c

def strLower (s : String) : String :=
  String.mk (s.data.map charLower)

def splitOnCharAux (sep : Char) (acc : List Char) : List Char → List String
  | [] => [String.mk acc.reverse]
  | c :: cs =>
    if c == sep then String.mk acc.reverse :: splitOnCharAux sep [] cs
    else splitOnCharAux sep (c :: acc) cs

/-- str.split(sep) for a single-character separator. -/
def splitOnChar (s : String) (sep : Char) : List String :=
  splitOnCharAux sep [] s.data

def joinCommaSpace : List String → String
  | [] => ""
  | [x] => x
  | x :: y :: xs => x ++ ", " ++ joinCommaSpace (y :: xs)

/-- Lexicographic comparison of strings by code point, the comparison Python
uses between strings. -/
def charsLe : List Char → List Char → Bool
  | [], _ => true
  | _ :: _, [] => false
  | a :: as, b :: bs => if a = b then charsLe as bs else decide (a.toNat < b.toNat)

def strLe (a b : String) : Bool := charsLe a.data b.data

/-- Insert x into an already sorted list, after every element le-below or
tied with it: the insertion step of a stable sort. -/
def insertSorted (le : α → α → Bool) (x : α) : List α → List α
  | [] => [x]
  | y :: ys => if le y x then y :: insertSorted le x ys else x :: y :: ys

/-- Stable sort by a total preorder.  A stable sort is uniquely determined by
the key order and the input order, so this computes exactly the list produced
by the stable list.sort of Python. -/
def pySort (le : α → α → Bool) (xs : List α) : List α :=
  xs.foldl (fun acc x => insertSorted le x acc) []

mutual

/-- str(v): the top-level string form of a value, as Python prints it.  For a
string the value itself; for containers the repr form of the members. -/
def pyStr : PyVal → String
  | .none => "None"
  | .bool true => "True"
  | .bool false => "False"
  | .int n => toString n
  | .str s => s
  | .list xs => "[" ++ joinCommaSpace (pyStrReprList xs) ++ "]"
  | .dict xs => "\x7b" ++ joinCommaSpace (pyStrReprDict xs) ++ "\x7d"

/-- repr(v), the form used for values nested inside containers. -/
def pyRepr : PyVal → String
  | .str s => "'" ++ s ++ "'"
  | .none => "None"
  | .bool true => "True"
  | .bool false => "False"
  | .int n => toString n
  | .list xs => "[" ++ joinCommaSpace (pyStrReprList xs) ++ "]"
  | .dict xs => "\x7b" ++ joinCommaSpace (pyStrReprDict xs) ++ "\x7d"

def pyStrReprList : List PyVal → List String
  | [] => []
  | x :: xs => pyRepr x :: pyStrReprList xs

def pyStrReprDict : List (String × PyVal) → List String
  | [] => []
  | (k, v) :: xs => ("'" ++ k ++ "': " ++ pyRepr v) :: pyStrReprDict xs

end


/-- v.lower(): only a string has the lower method; anything else raises
AttributeError. -/
def pyLower : PyVal → Except String String
  | .str s => .ok (strLower s)
  | _ => .error "AttributeError: lower"

/-- Python `v in container`.  Lists test membership by equality, strings test
substring containment (raising TypeError for a non-string needle), dicts test
key membership (raising TypeError for an unhashable key); other right-hand
sides are not iterable and raise TypeError. -/
def pyIn (v : PyVal) (container : PyVal) : Except String Bool :=
  match container with
  | .list xs => .ok (xs.any (fun x => x == v))
  | .str s =>
    match v with
    | .str p => .ok (strContains s p)
    | _ => .error "TypeError: in str requires str"
  | .dict xs =>
    if pyHashable v then
      match v with
      | .str k => .ok (hasKey xs k)
      | _ => .ok false
    else .error "TypeError: unhashable"
  | _ => .error "TypeError: not iterable"

/-- container[key] for a string key: dict lookup (KeyError when absent),
TypeError on any other container. -/
def pySubscript (container : PyVal) (k : String) : Except String PyVal :=
  match container with
  | .dict xs =>
    match xs.find? (fun p => p.1 == k) with
    | some p => .ok p.2
    | Option.none => .error "KeyError"
  | _ => .error "TypeError: not subscriptable"

/-- v.get(key, default): only a dict has the get method. -/
def pyGetMethod (v : PyVal) (k : String) (d : PyVal) : Except String PyVal :=
  match v with
  | .dict xs => .ok (dictGetD xs k d)
  | _ => .error "AttributeError: get"

/-- Iterating a value in a for loop: a list yields its members, a string its
characters, a dict its keys; other values raise TypeError. -/
def pyIter : PyVal → Except String (List PyVal)
  | .list xs => .ok xs
  | .str s => .ok (s.data.map (fun c => .str (String.mk [c])))
  | .dict xs => .ok (xs.map (fun p => .str p.1))
  | _ => .error "TypeError: not iterable"

/-- len(v): defined for strings, lists and dicts. -/
def pyLen : PyVal → Except String Int
  | .str s => .ok s.length
  | .list xs => .ok xs.length
  | .dict xs => .ok xs.length
  | _ => .error "TypeError: no len"

/-- Numeric view of a value for arithmetic comparison: ints are themselves,
bools coerce to 0 or 1, anything else raises TypeError when compared. -/
def pyNum : PyVal → Option Int
  | .int n => some n
  | .bool b => some (if b then 1 else 0)
  | _ => Option.none

/- ### Timestamp parsing (datetime.fromisoformat and strptime) -/

def digitsToNat (ds : List Char) : Nat :=
  ds.foldl (fun a c => a * 10 + (c.toNat - 48)) 0

def parseDigits (n : Nat) (cs : List Char) : Option (Nat × List Char) :=
  let pre := cs.take n
  if pre.length = n && pre.all Char.isDigit then
    some (digitsToNat pre, cs.drop n)
  else Option.none

def expectChar (c : Char) : List Char → Option (List Char)
  | x :: rest => if x = c then some rest else Option.none
  | [] => Option.none

def isLeap (y : Nat) : Bool := (y % 4 == 0 && y % 100 != 0) || y % 400 == 0

def daysInMonth (y m : Nat) : Nat :=
  if m = 2 then (if isLeap y then 29 else 28)
  else if m = 4 ∨ m = 6 ∨ m = 9 ∨ m = 11 then 30
  else 31

/-- Days from 1970-01-01 to the given civil date (proleptic Gregorian). -/
def daysFromCivil (y m d : Int) : Int :=
  let y := if m ≤ 2 then y - 1 else y
  let era := (if 0 ≤ y then y else y - 399) / 400
  let yoe := y - era * 400
  let mp := (m + 9) % 12
  let doy := (153 * mp + 2) / 5 + d - 1
  let doe := yoe * 365 + yoe / 4 - yoe / 100 + doy
  era * 146097 + doe - 719468

/-- Parse the date part YYYY-MM-DD, validating the ranges. -/
def parseDatePart (cs : List Char) : Option (Nat × Nat × Nat × List Char) := do
  let (y, cs) ← parseDigits 4 cs
  let cs ← expectChar '-' cs
  let (m, cs) ← parseDigits 2 cs
  let cs ← expectChar '-' cs
  let (d, cs) ← parseDigits 2 cs
  if 1 ≤ m ∧ m ≤ 12 ∧ 1 ≤ d ∧ d ≤ daysInMonth y m then
    some (y, m, d, cs)
  else Option.none

/-- Parse a fractional-second suffix of one to six digits after a dot,
returned in microseconds. -/
def parseFrac (cs : List Char) : Option (Nat × List Char) :=
  match cs with
  | '.' :: rest =>
    let ds := rest.takeWhile Char.isDigit
    if 1 ≤ ds.length ∧ ds.length ≤ 6 then
      some (digitsToNat ds * 10 ^ (6 - ds.length), rest.drop ds.length)
    else Option.none
  | _ => Option.none

/-- Parse HH:MM[:SS[.ffffff]], returning microseconds since midnight. -/
def parseTimePart (cs : List Char) : Option (Nat × List Char) := do
  let (h, cs) ← parseDigits 2 cs
  let cs ← expectChar ':' cs
  let (mi, cs) ← parseDigits 2 cs
  if h ≥ 24 ∨ mi ≥ 60 then Option.none
  else
    match expectChar ':' cs with
    | Option.none => some ((h * 3600 + mi * 60) * 1000000, cs)
    | some cs => do
      let (s, cs) ← parseDigits 2 cs
      if s ≥ 60 then Option.none
      else
        match parseFrac cs with
        | Option.none => some ((h * 3600 + mi * 60 + s) * 1000000, cs)
        | some (f, cs) => some ((h * 3600 + mi * 60 + s) * 1000000 + f, cs)

/-- Parse a trailing UTC offset +HH:MM or -HH:MM; must consume to the end. -/
def parseOffsetEnd (cs : List Char) : Option (Option Int) :=
  match cs with
  | [] => some Option.none
  | sign :: rest =>
    if sign = '+' ∨ sign = '-' then do
      let (oh, rest) ← parseDigits 2 rest
      let rest ← expectChar ':' rest
      let (om, rest) ← parseDigits 2 rest
      if oh ≥ 24 ∨ om ≥ 60 ∨ ¬rest.isEmpty then Option.none
      else
        let mag : Int := (oh * 3600 + om * 60 : Nat) * 1000000
        some (some (if sign = '-' then -mag else mag))
    else Option.none

/-- Model of datetime.fromisoformat.  On success returns the instant in
microseconds since the Unix epoch (offset applied when present, otherwise the
naive reading taken at face value) together with a flag recording whether the
parsed value is timezone-aware. -/
def fromisoformat (s : String) : Option (Int × Bool) := do
  let cs := s.data
  let (y, m, d, cs) ← parseDatePart cs
  let dateMicro : Int := daysFromCivil y m d * 86400000000
  match cs with
  | [] => some (dateMicro, false)
  | _ :: timeCs => do
    let (tm, cs) ← parseTimePart timeCs
    let off ← parseOffsetEnd cs
    match off with
    | Option.none => some (dateMicro + tm, false)
    | some o => some (dateMicro + tm - o, true)

/-- Model of datetime.strptime with the fixed pattern
YYYY-MM-DDTHH:MM:SS.ffffffZ used as the fallback parse.  The result is
returned as a timezone-aware UTC instant, matching the replace(tzinfo=utc)
applied immediately after this parse in the source. -/
def strptimeMicroZ (s : String) : Option Int := do
  let cs := s.data
  let (y, m, d, cs) ← parseDatePart cs
  let cs ← expectChar 'T' cs
  let (h, cs) ← parseDigits 2 cs
  let cs ← expectChar ':' cs
  let (mi, cs) ← parseDigits 2 cs
  let cs ← expectChar ':' cs
  let (sec, cs) ← parseDigits 2 cs
  if h ≥ 24 ∨ mi ≥ 60 ∨ sec ≥ 60 then Option.none
  else do
    let (f, cs) ← parseFrac cs
    let cs ← expectChar 'Z' cs
    if cs.isEmpty then
      some (daysFromCivil y m d * 86400000000 +
        ((h * 3600 + mi * 60 + sec) * 1000000 + f : Nat))
    else Option.none

/- ### Filter configuration (FILTER_CONFIG) -/

/-- The process-wide mutable filter configuration, modelled like every other
Python dict as an insertion-ordered association list. -/
def FilterConfig : Type := List (String × PyVal)

/-- FILTER_CONFIG[key]; every read in the source uses a key that is always
present, so the default branch is unreachable from the initial config. -/
def cfgGet (cfg : FilterConfig) (k : String) : PyVal :=
  dictGetD cfg k .none

/-- The initial FILTER_CONFIG of the source. -/
def FILTER_CONFIG : FilterConfig :=
  [("allowed_event_types",
      .list [.str "track", .str "identify", .str "page", .str "screen"]),
   ("allowed_track_events",
      .list [.str "Button Clicked", .str "Purchase Completed", .str "User Signup",
             .str "Page Viewed", .str "Product Added", .str "Checkout Started"]),
   ("required_properties", .dict []),
   ("property_filters", .dict []),
   ("ignore_test_events", .bool true),
   ("test_patterns", .list [.str "test", .str "debug", .str "dev", .str "local"]),
   ("filter_by_date", .bool true),
   ("date_field", .str "timestamp"),
   ("max_age_hours", .int 24)]

/-- POST /webhook/filters: for each pair in the request body, overwrite the
value only when the key already exists in FILTER_CONFIG. -/
def update_filters (cfg : FilterConfig) (new_config : List (String × PyVal)) : FilterConfig :=
  new_config.foldl
    (fun c kv =>
      if hasKey c kv.1 then c.map (fun p => if p.1 == kv.1 then (p.1, kv.2) else p)
      else c)
    cfg

/- ### get_nested_value -/

def nestedWalk : List String → PyVal → PyVal
  | [], v => v
  | k :: ks, .dict xs =>
    match xs.find? (fun p => p.1 == k) with
    | some p => nestedWalk ks p.2
    | Option.none => .none
  | _ :: _, _ => .none

/-- get_nested_value(data, path): walk the dot-separated path, returning None
(here PyVal.none) on any KeyError or TypeError. -/
def get_nested_value (data : Event) (path : String) : PyVal :=
  nestedWalk (splitOnChar path '.') (.dict data)

/- ### is_event_from_today -/

/-- dict.get(key) where the key itself is an arbitrary value: an unhashable
key raises TypeError; a hashable non-string key never matches the string keys
of a parsed JSON document, so the default None comes back. -/
def pyDictGetKey (data : Event) (k : PyVal) : Except String PyVal :=
  if pyHashable k then
    match k with
    | .str s => .ok (dictGetD data s .none)
    | _ => .ok .none
  else .error "TypeError: unhashable"

/-- The body of the try block of is_event_from_today: none means an exception
was raised inside the try (parse failure or a non-numeric max_age_hours in the
comparison), which the except clause converts to True. -/
def freshnessTry (ts : PyVal) (maxAge : PyVal) (nowMicro : Int) : Option Bool :=
  match ts with
  | .str s =>
    let parsed : Option Int :=
      match fromisoformat (strReplace s "Z" "+00:00") with
      | some (t, _) => some t
      | Option.none => strptimeMicroZ s
    match parsed with
    | Option.none => Option.none
    | some t =>
      match pyNum maxAge with
      | some m => some (decide (nowMicro - t ≤ m * 3600000000))
      | Option.none => Option.none
  | _ => some true

/-- is_event_from_today(data): fail-open freshness check against the rolling
max_age_hours window, at the UTC instant nowMicro. -/
def is_event_from_today (cfg : FilterConfig) (data : Event) (nowMicro : Int) :
    Except String Bool := do
  let ts ← pyDictGetKey data (cfgGet cfg "date_field")
  if !truthy ts then pure true
  else
    match freshnessTry ts (cfgGet cfg "max_age_hours") nowMicro with
    | some b => pure b
    | Option.none => pure true

/- ### should_process_event -/

/-- any(pattern in field_lower for pattern in test_patterns), evaluated
lazily left to right. -/
def anyPatternIn (pats : List PyVal) (fieldLower : String) : Except String Bool :=
  match pats with
  | [] => .ok false
  | p :: rest => do
    let b ← pyIn p (.str fieldLower)
    if b then pure true else anyPatternIn rest fieldLower

/-- The stage-3 loop over the probe strings: true when some test pattern is a
substring of some probe. -/
def checkTestPatterns (pats : List PyVal) : List String → Except String Bool
  | [] => .ok false
  | f :: fs => do
    let b ← anyPatternIn pats f
    if b then pure true else checkTestPatterns pats fs

/-- Stage 4: every required property must exist on the event with a truthy
value. -/
def checkRequired (data : Event) : List PyVal → Except String Bool
  | [] => .ok true
  | p :: rest => do
    let mem ← pyIn p (.dict data)
    if !mem then pure false
    else
      let v := match p with
        | .str k => dictGetD data k .none
        | _ => PyVal.none
      if !truthy v then pure false else checkRequired data rest

/-- dict.items() of property_filters. -/
def pyItems : PyVal → Except String (List (String × PyVal))
  | .dict xs => .ok xs
  | _ => .error "AttributeError: items"

/-- Stage 5: a resolved truthy value outside the allow-list rejects. -/
def checkPropertyFilters (data : Event) : List (String × PyVal) → Except String Bool
  | [] => .ok true
  | (path, allowed) :: rest => do
    let value := get_nested_value data path
    if truthy value then do
      let b ← pyIn value allowed
      if !b then pure false else checkPropertyFilters data rest
    else checkPropertyFilters data rest

/-- should_process_event(data): the six-stage accept/reject chain.  The error
side of the Except is the Python exception escaping the function (the source
has no handler inside it). -/
def should_process_event (cfg : FilterConfig) (data : Event) (nowMicro : Int) :
    Except String Bool := do
  let event_type ← pyLower (dictGetD data "type" (.str ""))
  let inTypes ← pyIn (.str event_type) (cfgGet cfg "allowed_event_types")
  if !inTypes then return false
  let trackOk ←
    (if event_type == "track" then do
      let allowed := cfgGet cfg "allowed_track_events"
      if truthy allowed then pyIn (dictGetD data "event" (.str "")) allowed
      else pure true
    else pure true)
  if !trackOk then return false
  let testHit ←
    (if truthy (cfgGet cfg "ignore_test_events") then do
      let pats ← pyIter (cfgGet cfg "test_patterns")
      let probes := [pyStr (dictGetD data "event" (.str "")),
                     pyStr (dictGetD data "userId" (.str "")),
                     pyStr (dictGetD data "properties" (.dict [])),
                     pyStr (dictGetD data "traits" (.dict []))].map strLower
      checkTestPatterns pats probes
    else pure false)
  if testHit then return false
  let reqVal ← pyGetMethod (cfgGet cfg "required_properties") event_type (.list [])
  let reqList ← pyIter reqVal
  let reqOk ← checkRequired data reqList
  if !reqOk then return false
  let filters ← pyItems (cfgGet cfg "property_filters")
  let propOk ← checkPropertyFilters data filters
  if !propOk then return false
  let fresh ←
    (if truthy (cfgGet cfg "filter_by_date") then is_event_from_today cfg data nowMicro
     else pure true)
  if !fresh then return false
  return true

/- ### Recent-event buffer and the webhook endpoint -/

structure RecentEntry where
  timestamp : String
  data : Event
deriving DecidableEq

instance : Inhabited RecentEntry := ⟨⟨"", []⟩⟩

/-- The buffer entry built by store_recent_event. -/
def mkEntry (nowIso : String) (e : Event) : RecentEntry := ⟨nowIso, e⟩

def MAX_RECENT_EVENTS : Nat := 50

/-- store_recent_event: append the entry, then drop the single oldest entry
when the buffer exceeds MAX_RECENT_EVENTS. -/
def store_recent_event (buf : List RecentEntry) (nowIso : String) (e : Event) :
    List RecentEntry :=
  let buf2 := buf ++ [⟨nowIso, e⟩]
  if buf2.length > MAX_RECENT_EVENTS then buf2.drop 1 else buf2

/-- The machine clock at one handler invocation: the naive local ISO string of
datetime.now().isoformat() and the UTC instant of datetime.now(timezone.utc). -/
structure Clock where
  iso : String
  utcMicro : Int

structure ServerState where
  config : FilterConfig
  recent_events : List RecentEntry

def process_track_event (data : Event) : Except String PyVal := do
  let c ← pyLen (dictGetD data "properties" (.dict []))
  pure (.dict [("processed", .bool true),
               ("event", dictGetD data "event" (.str "unknown")),
               ("user_id", dictGetD data "userId" .none),
               ("properties_count", .int c)])

def process_identify_event (data : Event) : Except String PyVal := do
  let c ← pyLen (dictGetD data "traits" (.dict []))
  pure (.dict [("processed", .bool true),
               ("user_id", dictGetD data "userId" .none),
               ("traits_count", .int c)])

def process_page_event (data : Event) : Except String PyVal := do
  let c ← pyLen (dictGetD data "properties" (.dict []))
  pure (.dict [("processed", .bool true),
               ("page", dictGetD data "name" (.str "unknown")),
               ("user_id", dictGetD data "userId" .none),
               ("properties_count", .int c)])

def process_screen_event (data : Event) : Except String PyVal := do
  let c ← pyLen (dictGetD data "properties" (.dict []))
  pure (.dict [("processed", .bool true),
               ("screen", dictGetD data "name" (.str "unknown")),
               ("user_id", dictGetD data "userId" .none),
               ("properties_count", .int c)])

def process_unknown_event (data : Event) : Except String PyVal :=
  .ok (.dict [("processed", .bool true),
              ("event_type", dictGetD data "type" (.str "unknown")),
              ("note", .str "Tipo de evento nao reconhecido")])

def processEventByType (event_type : PyVal) (data : Event) : Except String PyVal :=
  if event_type == .str "track" then process_track_event data
  else if event_type == .str "identify" then process_identify_event data
  else if event_type == .str "page" then process_page_event data
  else if event_type == .str "screen" then process_screen_event data
  else process_unknown_event data

/-- The visible outcome of POST /webhook/segment for a successfully parsed
JSON document: the filtered response, the success response, or the 500
produced by the outer exception handler. -/
inductive WebhookResponse where
  | filtered (timestamp : String)
  | success (event_type : PyVal) (result : PyVal) (timestamp : String)
  | serverError (detail : String)
deriving DecidableEq

/-- segment_webhook on a successfully parsed document: the event is stored
into the buffer first, and only then filtered and possibly processed.  All
three response paths leave the updated buffer in place. -/
def segment_webhook (st : ServerState) (data : Event) (clock : Clock) :
    ServerState × WebhookResponse :=
  let st2 : ServerState :=
    { st with recent_events := store_recent_event st.recent_events clock.iso data }
  match should_process_event st.config data clock.utcMicro with
  | .error e => (st2, .serverError e)
  | .ok false => (st2, .filtered clock.iso)
  | .ok true =>
    let event_type := dictGetD data "type" (.str "unknown")
    match processEventByType event_type data with
    | .error e => (st2, .serverError e)
    | .ok result => (st2, .success event_type result clock.iso)

/- ### GET /webhook/stats -/

structure StatsAcc where
  event_types : List (PyVal × Nat)
  track_events : List (PyVal × Nat)
  users : List PyVal
deriving DecidableEq

/-- hist.get(key, 0) on an insertion-ordered counter dict. -/
def histCount (h : List (PyVal × Nat)) (k : PyVal) : Nat :=
  match h.find? (fun p => p.1 == k) with
  | some p => p.2
  | Option.none => 0

/-- hist[key] = value on an insertion-ordered dict: overwrite the value of
the (unique) existing key in place, else append the pair. -/
def dictSetCount : List (PyVal × Nat) → PyVal → Nat → List (PyVal × Nat)
  | [], k, n => [(k, n)]
  | p :: rest, k, n => if p.1 == k then (p.1, n) :: rest else p :: dictSetCount rest k n

/-- hist[key] = hist.get(key, 0) + 1, raising TypeError for an unhashable
key. -/
def histAdd (h : List (PyVal × Nat)) (k : PyVal) : Except String (List (PyVal × Nat)) :=
  if pyHashable k then .ok (dictSetCount h k (histCount h k + 1))
  else .error "TypeError: unhashable"

/-- set.add, raising TypeError for an unhashable member. -/
def setAdd (s : List PyVal) (v : PyVal) : Except String (List PyVal) :=
  if pyHashable v then .ok (if s.any (fun x => x == v) then s else s ++ [v])
  else .error "TypeError: unhashable"

/-- One iteration of the stats loop over a buffered entry. -/
def statsStep (acc : StatsAcc) (entry : RecentEntry) : Except String StatsAcc := do
  let data := entry.data
  let et := dictGetD data "type" (.str "unknown")
  let event_types ← histAdd acc.event_types et
  let track_events ←
    (if et == .str "track" then
      histAdd acc.track_events (dictGetD data "event" (.str "unknown"))
    else pure acc.track_events)
  let uid := dictGetD data "userId" .none
  let users ← (if truthy uid then setAdd acc.users uid else pure acc.users)
  pure ⟨event_types, track_events, users⟩

def statsLoop (buf : List RecentEntry) (acc : StatsAcc) : Except String StatsAcc :=
  List.foldlM statsStep acc buf

/-- The two response shapes of GET /webhook/stats: the distinguished
empty-buffer response and the full statistics response. -/
inductive StatsResponse where
  | empty (timestamp : String)
  | stats (total_events : Nat) (unique_users : Nat) (event_types : List (PyVal × Nat))
      (track_events : List (PyVal × Nat)) (first_event : String) (last_event : String)
      (timestamp : String)
deriving DecidableEq

/-- GET /webhook/stats.  The endpoint has no local exception handler, so an
exception in the loop escapes as the error side. -/
def get_webhook_stats (buf : List RecentEntry) (nowIso : String) :
    Except String StatsResponse :=
  if buf.isEmpty then .ok (.empty nowIso)
  else
    match statsLoop buf ⟨[], [], []⟩ with
    | .error e => .error e
    | .ok acc =>
      .ok (.stats buf.length acc.users.length acc.event_types acc.track_events
            (buf.headD default).timestamp (buf.getLastD default).timestamp nowIso)

/- ### GET /api/sessions -/

/-- The record appended to a session group for one buffered event, with
exactly the fields built by the source. -/
structure SessionEvent where
  session_id : PyVal
  event : PyVal
  timestamp : PyVal
  user_id : PyVal
  anonymous_id : PyVal
  app_version : PyVal
  device_model : PyVal
  os_version : PyVal
  timezone : PyVal
  network : PyVal
  screen : PyVal
deriving DecidableEq

instance : Inhabited SessionEvent :=
  ⟨⟨.none, .none, .none, .none, .none, .none, .none, .none, .none, .none, .none⟩⟩

/-- The context.traits.session_id fallback branch of the extraction. -/
def contextTraitsSessionId (data : Event) : Except String PyVal := do
  if hasKey data "context" then
    let ctx := dictGetD data "context" .none
    let m ← pyIn (.str "traits") ctx
    if m then do
      let traits ← pySubscript ctx "traits"
      let m2 ← pyIn (.str "session_id") traits
      if m2 then pySubscript traits "session_id" else pure .none
    else pure .none
  else pure .none

/-- session_id extraction: properties.session_id first, then the
context.traits.session_id fallback, None when neither resolves. -/
def extract_session_id (data : Event) : Except String PyVal := do
  if hasKey data "properties" then
    let props := dictGetD data "properties" .none
    let m ← pyIn (.str "session_id") props
    if m then pySubscript props "session_id"
    else contextTraitsSessionId data
  else contextTraitsSessionId data

/-- Build the per-event session record; each .get on a non-dict raises
AttributeError exactly as in the source. -/
def mkSessionEvent (data : Event) (sid : PyVal) : Except String SessionEvent := do
  let context := dictGetD data "context" (.dict [])
  let app_info ← pyGetMethod context "app" (.dict [])
  let device_info ← pyGetMethod context "device" (.dict [])
  let app_version ← pyGetMethod app_info "version" .none
  let device_model ← pyGetMethod device_info "model" .none
  let osDict ← pyGetMethod context "os" (.dict [])
  let os_version ← pyGetMethod osDict "version" .none
  let tzv ← pyGetMethod context "timezone" .none
  let networkv ← pyGetMethod context "network" (.dict [])
  let screenv ← pyGetMethod (dictGetD data "properties" (.dict [])) "screen_name" .none
  pure { session_id := sid
       , event := dictGetD data "event" (.str "unknown")
       , timestamp := dictGetD data "timestamp" (.str "")
       , user_id := dictGetD data "userId" .none
       , anonymous_id := dictGetD data "anonymousId" .none
       , app_version := app_version
       , device_model := device_model
       , os_version := os_version
       , timezone := tzv
       , network := networkv
       , screen := screenv }

/-- The defaultdict(list) of session groups, insertion-ordered by first
appearance of each session id. -/
abbrev SessionGroups : Type := List (PyVal × List SessionEvent)

/-- sessions[session_id].append(record). -/
def addToGroups (gs : SessionGroups) (sid : PyVal) (ev : SessionEvent) : SessionGroups :=
  if gs.any (fun g => g.1 == sid) then
    gs.map (fun g => if g.1 == sid then (g.1, g.2 ++ [ev]) else g)
  else gs ++ [(sid, [ev])]

/-- One iteration of the grouping loop: events without a truthy resolvable
session id are skipped; an unhashable session id raises TypeError at the
defaultdict subscript. -/
def sessionStep (gs : SessionGroups) (entry : RecentEntry) : Except String SessionGroups := do
  let sid ← extract_session_id entry.data
  if truthy sid then
    if pyHashable sid then do
      let ev ← mkSessionEvent entry.data sid
      pure (addToGroups gs sid ev)
    else .error "TypeError: unhashable"
  else pure gs

def groupSessions (buf : List RecentEntry) : Except String SessionGroups :=
  List.foldlM sessionStep [] buf

/-- The member-sort key `x['timestamp'] or ''`.  A falsy timestamp sorts as
the empty string; a truthy non-string timestamp would make the Python sort
raise on a mixed-type comparison, a shape no claim exercises, and is compared
here as the empty string as well. -/
def memberSortKey (e : SessionEvent) : String :=
  match e.timestamp with
  | .str s => s
  | _ => ""

/-- round(x, 1) on the exact rational p / q (q > 0), returned scaled by 10:
round-half-to-even, as Python rounds. -/
def roundHalfEven (p q : Int) : Int :=
  let f := Int.fdiv p q
  let r := p - f * q
  if 2 * r < q then f
  else if q < 2 * r then f + 1
  else if f % 2 = 0 then f else f + 1

/-- calculate_session_duration on the sorted member list, in tenths of a
minute (round(minutes, 1) scaled by 10).  Any exception inside the try —
a non-string timestamp, a failed parse, or subtracting a timezone-aware and a
naive datetime — yields 0. -/
def calculate_session_duration (events : List SessionEvent) : Int :=
  if events.length < 2 then 0
  else
    match events.head?, events.getLast? with
    | some fe, some le =>
      (match fe.timestamp, le.timestamp with
      | .str fs, .str ls =>
        (match fromisoformat (strReplace fs "Z" "+00:00"),
               fromisoformat (strReplace ls "Z" "+00:00") with
        | some (ft, fa), some (lt, la) =>
          if fa == la then roundHalfEven (lt - ft) 6000000 else 0
        | _, _ => 0)
      | _, _ => 0)
    | _, _ => 0

/-- The projected member record of the response: the event name, timestamp
and screen of one session member. -/
structure MemberEvent where
  event : PyVal
  timestamp : PyVal
  screen : PyVal
deriving DecidableEq

/-- One processed session summary of the response. -/
structure SessionSummary where
  session_id : PyVal
  user_id : PyVal
  anonymous_id : PyVal
  device_model : PyVal
  os_version : PyVal
  timezone : PyVal
  network : PyVal
  events : List MemberEvent
  total_events : Nat
  duration : Int
  first_event_time : PyVal
  last_event_time : PyVal
deriving DecidableEq

/-- Process one session group: sort the members ascending by timestamp string,
then take every attribution field from the FIRST MEMBER OF THE SORTED LIST. -/
def processSession (sid : PyVal) (events : List SessionEvent) : SessionSummary :=
  let sorted := pySort (fun a b => strLe (memberSortKey a) (memberSortKey b)) events
  let first_event := sorted.headD default
  { session_id := sid
  , user_id := first_event.user_id
  , anonymous_id := first_event.anonymous_id
  , device_model := first_event.device_model
  , os_version := first_event.os_version
  , timezone := first_event.timezone
  , network := first_event.network
  , events := sorted.map (fun e => ⟨e.event, e.timestamp, e.screen⟩)
  , total_events := sorted.length
  , duration := calculate_session_duration sorted
  , first_event_time := (sorted.headD default).timestamp
  , last_event_time := (sorted.getLastD default).timestamp }

/-- The final-sort key `x['last_event_time'] or ''`, with the same treatment
of non-string values as memberSortKey. -/
def summarySortKey (s : SessionSummary) : String :=
  match s.last_event_time with
  | .str st => st
  | _ => ""

structure SessionsResponse where
  total_sessions : Nat
  sessions : List SessionSummary
  timestamp : String
deriving DecidableEq

/-- GET /api/sessions: group the buffer, summarize each session, order the
summaries descending by last activity (a stable sort, so ties keep first-seen
order, matching the stable reverse sort of Python), and truncate the listing
to 20 — after total_sessions has been taken from the untruncated list. -/
def get_sessions_analysis (buf : List RecentEntry) (nowIso : String) :
    Except String SessionsResponse :=
  match groupSessions buf with
  | .error e => .error e
  | .ok gs =>
    let processed := gs.map (fun g => processSession g.1 g.2)
    let sortedP := pySort (fun a b => strLe (summarySortKey b) (summarySortKey a)) processed
    .ok { total_sessions := processed.length
        , sessions := sortedP.take 20
        , timestamp := nowIso }

/- ### Verification infrastructure -/

instance {e a : Type} [DecidableEq e] [DecidableEq a] : DecidableEq (Except e a) := fun x y =>
  match x, y with
  | .ok v, .ok w =>
    if h : v = w then isTrue (h ▸ rfl) else isFalse (fun hh => h (Except.ok.inj hh))
  | .error u, .error t =>
    if h : u = t then isTrue (h ▸ rfl) else isFalse (fun hh => h (Except.error.inj hh))
  | .ok _, .error _ => isFalse (fun h => Except.noConfusion h)
  | .error _, .ok _ => isFalse (fun h => Except.noConfusion h)

lemma cfg_date_field : cfgGet FILTER_CONFIG "date_field" = .str "timestamp" := rfl

lemma cfg_max_age : cfgGet FILTER_CONFIG "max_age_hours" = .int 24 := rfl

/-- The UTC instant 2024-01-02T00:00:00Z in microseconds since the epoch. -/
def nowJan2 : Int := ((fromisoformat "2024-01-02T00:00:00+00:00").getD (0, false)).1

/- ### C4: the freshness check -/

/-- C4: the freshness check accepts a parseable event iff
(now - eventTime) in hours is at most max_age_hours = 24 (so a future
timestamp always passes), accepts fail-open when the timestamp field is
absent or empty, not a string, or unparseable by both parses, and on the
concrete pair around now = 2024-01-02T00:00:00Z accepts the event of
2024-01-01T00:00:01Z and rejects the event of 2023-12-31T23:59:00Z. -/
theorem freshness_window_correct :
    (∀ (data : Event) (now : Int),
      truthy (dictGetD data "timestamp" .none) = false →
      is_event_from_today FILTER_CONFIG data now = .ok true) ∧
    (∀ (data : Event) (now : Int) (v : PyVal),
      dictGetD data "timestamp" .none = v → truthy v = true → (∀ s, v ≠ PyVal.str s) →
      is_event_from_today FILTER_CONFIG data now = .ok true) ∧
    (∀ (data : Event) (now : Int) (s : String),
      dictGetD data "timestamp" .none = .str s → s ≠ "" →
      fromisoformat (strReplace s "Z" "+00:00") = Option.none →
      strptimeMicroZ s = Option.none →
      is_event_from_today FILTER_CONFIG data now = .ok true) ∧
    (∀ (data : Event) (now : Int) (s : String) (t : Int) (a : Bool),
      dictGetD data "timestamp" .none = .str s → s ≠ "" →
      fromisoformat (strReplace s "Z" "+00:00") = some (t, a) →
      is_event_from_today FILTER_CONFIG data now = .ok (decide (now - t ≤ 24 * 3600000000))) ∧
    (∀ (data : Event) (now : Int) (s : String) (t : Int),
      dictGetD data "timestamp" .none = .str s → s ≠ "" →
      fromisoformat (strReplace s "Z" "+00:00") = Option.none →
      strptimeMicroZ s = some t →
      is_event_from_today FILTER_CONFIG data now = .ok (decide (now - t ≤ 24 * 3600000000))) ∧
    (∀ (data : Event) (now : Int) (s : String) (t : Int) (a : Bool),
      dictGetD data "timestamp" .none = .str s → s ≠ "" →
      fromisoformat (strReplace s "Z" "+00:00") = some (t, a) → now < t →
      is_event_from_today FILTER_CONFIG data now = .ok true) ∧
    is_event_from_today FILTER_CONFIG [("timestamp", .str "2024-01-01T00:00:01Z")] nowJan2
      = .ok true ∧
    is_event_from_today FILTER_CONFIG [("timestamp", .str "2023-12-31T23:59:00Z")] nowJan2
      = .ok false := by
  refine ⟨?_, ?_, ?_, ?_, ?_, ?_, by decide, by decide⟩
  · intro data now h
    simp [is_event_from_today, cfg_date_field, pyDictGetKey, pyHashable, h,
      Bind.bind, Except.bind, Pure.pure, Except.pure]
  · intro data now v hv ht hns
    cases v <;>
      simp_all [is_event_from_today, cfg_date_field, cfg_max_age, pyDictGetKey, pyHashable,
        Bind.bind, Except.bind, Pure.pure, Except.pure, freshnessTry]
  · intro data now s hv hs h1 h2
    simp [is_event_from_today, cfg_date_field, cfg_max_age, pyDictGetKey, pyHashable, hv,
      truthy, hs, Bind.bind, Except.bind, Pure.pure, Except.pure, freshnessTry, h1, h2]
  · intro data now s t a hv hs h1
    simp [is_event_from_today, cfg_date_field, cfg_max_age, pyDictGetKey, pyHashable, hv,
      truthy, hs, Bind.bind, Except.bind, Pure.pure, Except.pure, freshnessTry, h1, pyNum]
  · intro data now s t hv hs h1 h2
    simp [is_event_from_today, cfg_date_field, cfg_max_age, pyDictGetKey, pyHashable, hv,
      truthy, hs, Bind.bind, Except.bind, Pure.pure, Except.pure, freshnessTry, h1, h2, pyNum]
  · intro data now s t a hv hs h1 hfut
    simp [is_event_from_today, cfg_date_field, cfg_max_age, pyDictGetKey, pyHashable, hv,
      truthy, hs, Bind.bind, Except.bind, Pure.pure, Except.pure, freshnessTry, h1, pyNum]
    omega

/-- Witness for C4: the theorem applied at concrete inputs. -/
theorem freshness_window_correct_witness :
    is_event_from_today FILTER_CONFIG [] 0 = .ok true ∧
    is_event_from_today FILTER_CONFIG [("timestamp", .int 7)] 0 = .ok true ∧
    is_event_from_today FILTER_CONFIG [("timestamp", .str "not a date")] 0 = .ok true ∧
    is_event_from_today FILTER_CONFIG [("timestamp", .str "2024-01-01T00:00:00Z")] nowJan2 =
      .ok (decide (nowJan2 - 1704067200000000 ≤ 24 * 3600000000)) ∧
    is_event_from_today FILTER_CONFIG [("timestamp", .str "2024-01-03T00:00:00Z")] nowJan2 =
      .ok true :=
  ⟨freshness_window_correct.1 [] 0 (by decide),
   freshness_window_correct.2.1 [("timestamp", .int 7)] 0 (.int 7) (by decide) (by decide)
     (fun s => by simp),
   freshness_window_correct.2.2.1 [("timestamp", .str "not a date")] 0 "not a date"
     (by decide) (by decide) (by decide) (by decide),
   freshness_window_correct.2.2.2.1 [("timestamp", .str "2024-01-01T00:00:00Z")] nowJan2
     "2024-01-01T00:00:00Z" 1704067200000000 true (by decide) (by decide) (by decide),
   freshness_window_correct.2.2.2.2.2.1 [("timestamp", .str "2024-01-03T00:00:00Z")] nowJan2
     "2024-01-03T00:00:00Z" 1704240000000000 true (by decide) (by decide) (by decide)
     (by decide)⟩

/- ### C8: update_filters merges only known keys -/

/-- The configuration after updateFilters with one known and one unknown key. -/
def updatedConfig : FilterConfig :=
  update_filters FILTER_CONFIG [("max_age_hours", .int 1), ("unknownKey", .str "x")]

/-- C8: updateFilters with a known and an unknown key sets max_age_hours to 1,
leaves every other configuration entry unchanged, and adds no unknownKey. -/
theorem update_filters_merges_known_keys_only :
    cfgGet updatedConfig "max_age_hours" = .int 1 ∧
    (∀ k : String, k ≠ "max_age_hours" → cfgGet updatedConfig k = cfgGet FILTER_CONFIG k) ∧
    hasKey updatedConfig "unknownKey" = false := by
  refine ⟨by decide, ?_, by decide⟩
  intro k hk
  have hbeq : (k == "max_age_hours") = false := by
    simp [hk]
  have hbeq2 : ("max_age_hours" == k) = false := by
    rw [beq_eq_false_iff_ne]
    exact fun h => hk h.symm
  simp [updatedConfig, update_filters, FILTER_CONFIG, cfgGet, dictGetD, hasKey,
    List.find?, hbeq, hbeq2]

/-- Witness for C8: the unchanged-keys component applied at a concrete key,
together with the two closed components. -/
theorem update_filters_merges_known_keys_only_witness :
    cfgGet updatedConfig "max_age_hours" = .int 1 ∧
    cfgGet updatedConfig "allowed_event_types" = cfgGet FILTER_CONFIG "allowed_event_types" ∧
    hasKey updatedConfig "unknownKey" = false :=
  ⟨update_filters_merges_known_keys_only.1,
   update_filters_merges_known_keys_only.2.1 "allowed_event_types" (by decide),
   update_filters_merges_known_keys_only.2.2⟩

/- ### C3: buffering happens before, and regardless of, the filter decision -/

/-- C3: for every server state, parsed document and clock reading, the state
after segment_webhook holds exactly the buffer with the new entry appended
(with capacity eviction), the new entry is in the buffer — whatever the
filter decided, including the rejection and exception paths — and the
configuration is untouched; acceptance only selects the response. -/
theorem ingest_buffers_before_filtering :
    ∀ (st : ServerState) (data : Event) (clock : Clock),
      (segment_webhook st data clock).1.recent_events =
        store_recent_event st.recent_events clock.iso data ∧
      mkEntry clock.iso data ∈ (segment_webhook st data clock).1.recent_events ∧
      (segment_webhook st data clock).1.config = st.config := by
  intro st data clock
  have hstate : (segment_webhook st data clock).1 =
      { st with recent_events := store_recent_event st.recent_events clock.iso data } := by
    simp only [segment_webhook]
    split
    · rfl
    · rfl
    · split <;> rfl
  refine ⟨by rw [hstate], ?_, by rw [hstate]⟩
  rw [hstate]
  show mkEntry clock.iso data ∈ store_recent_event st.recent_events clock.iso data
  simp only [store_recent_event, mkEntry]
  cases st.recent_events with
  | nil => simp [MAX_RECENT_EVENTS]
  | cons x xs => split <;> simp

/- ### C5: buffer capacity and FIFO eviction -/

lemma store_recent_event_drop (buf : List RecentEntry) (nowIso : String) (e : Event)
    (h : buf.length ≤ MAX_RECENT_EVENTS) :
    store_recent_event buf nowIso e =
      (buf ++ [mkEntry nowIso e]).drop (buf.length + 1 - MAX_RECENT_EVENTS) := by
  have h50 : MAX_RECENT_EVENTS = 50 := rfl
  simp only [store_recent_event, mkEntry]
  split
  · rename_i hlen
    simp only [List.length_append, List.length_cons, List.length_nil] at hlen
    have h1 : buf.length + 1 - MAX_RECENT_EVENTS = 1 := by omega
    rw [h1]
  · rename_i hlen
    simp only [List.length_append, List.length_cons, List.length_nil] at hlen
    have h0 : buf.length + 1 - MAX_RECENT_EVENTS = 0 := by omega
    rw [h0, List.drop_zero]

lemma store_fold_suffix (nowIso : String) :
    ∀ (es : List Event) (acc : List RecentEntry), acc.length ≤ MAX_RECENT_EVENTS →
    es.foldl (fun b e => store_recent_event b nowIso e) acc =
      (acc ++ es.map (fun e => mkEntry nowIso e)).drop
        (acc.length + es.length - MAX_RECENT_EVENTS) := by
  have h50 : MAX_RECENT_EVENTS = 50 := rfl
  intro es
  induction es with
  | nil =>
    intro acc hacc
    simp [Nat.sub_eq_zero_of_le hacc]
  | cons e es ih =>
    intro acc hacc
    simp only [List.foldl_cons]
    rw [store_recent_event_drop acc nowIso e hacc]
    have hle : acc.length + 1 - MAX_RECENT_EVENTS ≤ (acc ++ [mkEntry nowIso e]).length := by
      simp only [List.length_append, List.length_cons, List.length_nil]
      omega
    have hlen2 : ((acc ++ [mkEntry nowIso e]).drop
        (acc.length + 1 - MAX_RECENT_EVENTS)).length ≤ MAX_RECENT_EVENTS := by
      simp only [List.length_drop, List.length_append, List.length_cons, List.length_nil]
      omega
    rw [ih _ hlen2]
    rw [← List.drop_append_of_le_length hle, List.drop_drop]
    have hlist : acc ++ (e :: es).map (fun e => mkEntry nowIso e) =
        (acc ++ [mkEntry nowIso e]) ++ es.map (fun e => mkEntry nowIso e) := by
      simp
    rw [hlist]
    congr 1
    simp only [List.length_drop, List.length_append, List.length_cons, List.length_nil]
    omega

/-- C5: the buffer never exceeds MAX_RECENT_EVENTS = 50 entries; an append at
capacity evicts exactly the single oldest entry; starting from the empty
buffer, any sequence of appends leaves exactly the last 50 entries in arrival
order, so after 51 appends the length is 50 and the head is the entry of the
2nd appended event. -/
theorem buffer_capacity_and_fifo :
    (∀ (buf : List RecentEntry) (nowIso : String) (e : Event),
      buf.length ≤ MAX_RECENT_EVENTS →
      (store_recent_event buf nowIso e).length ≤ MAX_RECENT_EVENTS) ∧
    (∀ (buf : List RecentEntry) (nowIso : String) (e : Event),
      buf.length = MAX_RECENT_EVENTS →
      store_recent_event buf nowIso e = buf.drop 1 ++ [mkEntry nowIso e]) ∧
    (∀ (es : List Event) (nowIso : String),
      es.foldl (fun b e => store_recent_event b nowIso e) [] =
        (es.map (fun e => mkEntry nowIso e)).drop
          (es.length - MAX_RECENT_EVENTS)) ∧
    (∀ (es : List Event) (nowIso : String), es.length = 51 →
      (es.foldl (fun b e => store_recent_event b nowIso e) []).length = 50 ∧
      (es.foldl (fun b e => store_recent_event b nowIso e) []).head? =
        (es.map (fun e => mkEntry nowIso e))[1]?) := by
  have h50 : MAX_RECENT_EVENTS = 50 := rfl
  refine ⟨?_, ?_, ?_, ?_⟩
  · intro buf nowIso e h
    rw [store_recent_event_drop buf nowIso e h]
    simp only [List.length_drop, List.length_append, List.length_cons, List.length_nil]
    omega
  · intro buf nowIso e h
    rw [store_recent_event_drop buf nowIso e (le_of_eq h), h]
    have h1 : MAX_RECENT_EVENTS + 1 - MAX_RECENT_EVENTS = 1 := by omega
    rw [h1, List.drop_append_of_le_length (by omega)]
  · intro es nowIso
    rw [store_fold_suffix nowIso es [] (by simp)]
    simp
  · intro es nowIso h51
    rw [store_fold_suffix nowIso es [] (by simp)]
    constructor
    · simp only [List.length_drop, List.length_map, List.nil_append, List.length_nil, h51]
      omega
    · rw [List.head?_eq_getElem?, List.getElem?_drop]
      simp only [List.nil_append, List.length_nil, h51]
      norm_num [h50]

/-- The 51 distinct events of the C5 witness run. -/
def c5Events : List Event := (List.range 51).map (fun i => [("i", PyVal.int (Int.ofNat i))])

/-- Witness for C5: the theorem applied to a concrete run of 51 appends. -/
theorem buffer_capacity_and_fifo_witness :
    (c5Events.foldl (fun b e => store_recent_event b "t" e) []).length = 50 ∧
    (c5Events.foldl (fun b e => store_recent_event b "t" e) []).head? =
      (c5Events.map (fun e => mkEntry "t" e))[1]? :=
  buffer_capacity_and_fifo.2.2.2 c5Events "t" (by decide)

/- ### C7: repeated reads with no intervening ingest -/

/-- Erase the response-clock field of a stats response. -/
def stripStatsTime : StatsResponse → StatsResponse
  | .empty _ => .empty ""
  | .stats a b c d e f _ => .stats a b c d e f ""

/-- Erase the response-clock field of a sessions response. -/
def stripSessionsTime (r : SessionsResponse) : SessionsResponse :=
  { r with timestamp := "" }

/-- Counterexample to C7 as stated: two calls of GET /webhook/stats (and of
GET /api/sessions) with no intervening ingest — here on the empty buffer, at
two successive clock readings — return values that differ in the timestamp
field, so the two results are not equal in every field. -/
theorem reads_not_identical_counterexample :
    get_webhook_stats [] "2024-01-01T00:00:00" ≠
      get_webhook_stats [] "2024-01-01T00:00:01" ∧
    get_sessions_analysis [] "2024-01-01T00:00:00" ≠
      get_sessions_analysis [] "2024-01-01T00:00:01" := by
  decide

/-- Amended C7: two reads with no intervening ingest agree on every field
except the response timestamp field, which records the clock at the call. -/
theorem reads_idempotent_up_to_clock :
    ∀ (buf : List RecentEntry) (n1 n2 : String),
      (get_webhook_stats buf n1).map stripStatsTime =
        (get_webhook_stats buf n2).map stripStatsTime ∧
      (get_sessions_analysis buf n1).map stripSessionsTime =
        (get_sessions_analysis buf n2).map stripSessionsTime := by
  intro buf n1 n2
  constructor
  · unfold get_webhook_stats
    cases h : buf.isEmpty
    · simp only [h, Bool.false_eq_true, if_false]
      cases hs : statsLoop buf ⟨[], [], []⟩ <;> simp [Except.map, stripStatsTime]
    · simp [Except.map, stripStatsTime]
  · unfold get_sessions_analysis
    cases hg : groupSessions buf <;> simp [Except.map, stripSessionsTime]

/- ### C6: purity of the filter decision -/

/-- A track event passing every stage except possibly freshness. -/
def pureTrackEvent : Event :=
  [("type", .str "track"), ("event", .str "Button Clicked"),
   ("userId", .str "user_42"), ("timestamp", .str "2024-01-01T00:00:00Z")]

/-- One hour after the pureTrackEvent timestamp. -/
def nowPlus1h : Int := ((fromisoformat "2024-01-01T01:00:00+00:00").getD (0, false)).1

/-- Ninety-six hours after the pureTrackEvent timestamp. -/
def nowPlus96h : Int := ((fromisoformat "2024-01-05T00:00:00+00:00").getD (0, false)).1

/-- Counterexample to C6 as stated: with the date filter on (as in the
initial configuration) the decision also reads the machine clock, so two
evaluations with identical event and identical config need not agree: the
same (event, config) pair accepts at one instant and rejects at a later one. -/
theorem decision_depends_on_clock_counterexample :
    should_process_event FILTER_CONFIG pureTrackEvent nowPlus1h = .ok true ∧
    should_process_event FILTER_CONFIG pureTrackEvent nowPlus96h = .ok false ∧
    nowPlus1h ≠ nowPlus96h := by
  decide

/-- Amended C6: the decision is a pure function of (event, config, clock)
with no dependence on past decisions or any other server state: two webhook
calls with equal configurations and arbitrary, possibly different, buffered
histories produce the same response (hence the same decision). -/
theorem decision_pure_in_event_config_clock :
    ∀ (st1 st2 : ServerState) (data : Event) (clock : Clock),
      st1.config = st2.config →
      (segment_webhook st1 data clock).2 = (segment_webhook st2 data clock).2 := by
  intro st1 st2 data clock h
  simp only [segment_webhook, h]
  split
  · rfl
  · rfl
  · split <;> rfl

/-- Witness for C6 amended: the theorem applied at two concrete states with
the same config and different buffers. -/
theorem decision_pure_in_event_config_clock_witness :
    (segment_webhook ⟨FILTER_CONFIG, []⟩ pureTrackEvent ⟨"c", nowPlus1h⟩).2 =
      (segment_webhook ⟨FILTER_CONFIG, [mkEntry "r" []]⟩ pureTrackEvent ⟨"c", nowPlus1h⟩).2 :=
  decision_pure_in_event_config_clock ⟨FILTER_CONFIG, []⟩ ⟨FILTER_CONFIG, [mkEntry "r" []]⟩
    pureTrackEvent ⟨"c", nowPlus1h⟩ rfl

/- ### C2: totality of the filter decision -/

lemma cfg_allowed_types :
    cfgGet FILTER_CONFIG "allowed_event_types" =
      .list [.str "track", .str "identify", .str "page", .str "screen"] := rfl

lemma cfg_track_events :
    cfgGet FILTER_CONFIG "allowed_track_events" =
      .list [.str "Button Clicked", .str "Purchase Completed", .str "User Signup",
             .str "Page Viewed", .str "Product Added", .str "Checkout Started"] := rfl

lemma anyPatternIn_defaults_ok (f : String) :
    ∃ b, anyPatternIn [.str "test", .str "debug", .str "dev", .str "local"] f = .ok b := by
  simp only [anyPatternIn, pyIn, Bind.bind, Except.bind]
  split_ifs <;> exact ⟨_, rfl⟩

lemma checkTestPatterns_defaults_ok :
    ∀ (fs : List String),
      ∃ b, checkTestPatterns [.str "test", .str "debug", .str "dev", .str "local"] fs =
        .ok b := by
  intro fs
  induction fs with
  | nil => exact ⟨false, rfl⟩
  | cons f fs ih =>
    obtain ⟨b, hb⟩ := anyPatternIn_defaults_ok f
    obtain ⟨b2, hb2⟩ := ih
    cases b
    · exact ⟨b2, by simp only [checkTestPatterns, hb, Bind.bind, Except.bind, if_false,
        Bool.false_eq_true]; exact hb2⟩
    · exact ⟨true, by simp only [checkTestPatterns, hb, Bind.bind, Except.bind, if_true,
        Pure.pure, Except.pure]⟩

lemma is_event_from_today_default_ok (data : Event) (now : Int) :
    ∃ b, is_event_from_today FILTER_CONFIG data now = .ok b := by
  have hkey : pyDictGetKey data (.str "timestamp") = .ok (dictGetD data "timestamp" .none) :=
    rfl
  simp only [is_event_from_today, cfg_date_field, cfg_max_age, hkey, Bind.bind, Except.bind]
  cases htr : truthy (dictGetD data "timestamp" PyVal.none)
  · simp only [htr, Bool.not_false, if_true]
    exact ⟨true, rfl⟩
  · simp only [htr, Bool.not_true, Bool.false_eq_true, if_false]
    cases hft : freshnessTry (dictGetD data "timestamp" PyVal.none) (PyVal.int 24) now with
    | none => exact ⟨true, rfl⟩
    | some b => exact ⟨b, rfl⟩

/-- Counterexample to C2 as stated: a document whose type field holds a
non-string raises AttributeError inside should_process_event (the .lower()
call), so the decision is not a boolean for every input document. -/
theorem filter_raises_on_nonstring_type_counterexample :
    should_process_event FILTER_CONFIG [("type", .int 123)] 0 =
      .error "AttributeError: lower" := by
  decide

/-- Amended C2: under the initial configuration the decision is a boolean,
with no reachable exception, for exactly the documents whose type field is
absent or a string; when type holds a non-string value the .lower() call
raises AttributeError. -/
theorem filter_decision_boolean_for_string_type :
    (∀ (data : Event) (now : Int) (s : String),
      dictGetD data "type" (.str "") = .str s →
      ∃ b, should_process_event FILTER_CONFIG data now = .ok b) ∧
    (∀ (data : Event) (now : Int) (v : PyVal),
      dictGetD data "type" (.str "") = v → (∀ s, v ≠ .str s) →
      should_process_event FILTER_CONFIG data now = .error "AttributeError: lower") := by
  constructor
  · intro data now s hs
    obtain ⟨bf, hbf⟩ := is_event_from_today_default_ok data now
    obtain ⟨bt, hbt⟩ := checkTestPatterns_defaults_ok
      ([pyStr (dictGetD data "event" (.str "")),
        pyStr (dictGetD data "userId" (.str "")),
        pyStr (dictGetD data "properties" (.dict [])),
        pyStr (dictGetD data "traits" (.dict []))].map strLower)
    obtain ⟨c1, hc1⟩ : ∃ c, pyIn (.str (strLower s))
        (cfgGet FILTER_CONFIG "allowed_event_types") = .ok c := ⟨_, rfl⟩
    obtain ⟨c2, hc2⟩ : ∃ c, pyIn (dictGetD data "event" (.str ""))
        (cfgGet FILTER_CONFIG "allowed_track_events") = .ok c := ⟨_, rfl⟩
    have h4a : pyGetMethod (cfgGet FILTER_CONFIG "required_properties") (strLower s)
        (.list []) = .ok (.list []) := rfl
    have h4b : pyIter (PyVal.list []) = .ok [] := rfl
    have h4c : checkRequired data [] = .ok true := rfl
    have h5a : pyItems (cfgGet FILTER_CONFIG "property_filters") = .ok [] := rfl
    have h5b : checkPropertyFilters data [] = .ok true := rfl
    have h3a : pyIter (cfgGet FILTER_CONFIG "test_patterns") =
        .ok [.str "test", .str "debug", .str "dev", .str "local"] := rfl
    have ht2 : truthy (cfgGet FILTER_CONFIG "allowed_track_events") = true := rfl
    have ht3 : truthy (cfgGet FILTER_CONFIG "ignore_test_events") = true := rfl
    have ht6 : truthy (cfgGet FILTER_CONFIG "filter_by_date") = true := rfl
    cases c2 <;>
      (simp only [should_process_event, hs, pyLower, Bind.bind, Except.bind, Pure.pure,
        Except.pure, hc1, hc2, h4a, h4b, h4c, h5a, h5b, h3a, ht2, ht3, ht6, hbf, hbt,
        if_true]
       split_ifs <;> exact ⟨_, rfl⟩)
  · intro data now v hv hns
    cases v <;> simp_all [should_process_event, pyLower, Bind.bind, Except.bind]

/-- Witness for C2 amended: the two components applied at concrete
documents. -/
theorem filter_decision_boolean_for_string_type_witness :
    (∃ b, should_process_event FILTER_CONFIG [("type", .str "page")] 0 = .ok b) ∧
    should_process_event FILTER_CONFIG [("type", .list [])] 0 =
      .error "AttributeError: lower" :=
  ⟨filter_decision_boolean_for_string_type.1 [("type", .str "page")] 0 "page" (by decide),
   filter_decision_boolean_for_string_type.2 [("type", .list [])] 0 (.list [])
     (by decide) (fun s => by simp)⟩

/- ### C9: the stats computation -/

/-- The type value the stats loop reads from a buffered entry. -/
def typeOfEntry (en : RecentEntry) : PyVal := dictGetD en.data "type" (.str "unknown")

/-- The track-event name the stats loop reads from a buffered entry. -/
def trackNameOfEntry (en : RecentEntry) : PyVal := dictGetD en.data "event" (.str "unknown")

/-- The userId value the stats loop reads from a buffered entry. -/
def userIdOfEntry (en : RecentEntry) : PyVal := dictGetD en.data "userId" .none

lemma histCount_dictSetCount (h : List (PyVal × Nat)) (k : PyVal) (n : Nat) (k2 : PyVal) :
    histCount (dictSetCount h k n) k2 = if k2 = k then n else histCount h k2 := by
  induction h with
  | nil =>
    by_cases hk : k2 = k
    · have hb : (k == k2) = true := by simp [hk]
      simp [dictSetCount, histCount, List.find?, hb, hk]
    · have hb : (k == k2) = false := by simp; exact fun hh => hk hh.symm
      simp [dictSetCount, histCount, List.find?, hb, hk]
  | cons p t ih =>
    rcases p with ⟨a, m⟩
    by_cases hp : a = k
    · subst hp
      by_cases h2 : a = k2
      · subst h2
        have hb : (a == a) = true := by simp
        simp [dictSetCount, histCount, List.find?, hb]
      · have hb : (a == k2) = false := by simp [h2]
        have hba : (a == a) = true := by simp
        have h2s : ¬(k2 = a) := fun hh => h2 hh.symm
        simp [dictSetCount, histCount, List.find?, hb, hba, h2s]
    · have hbk : (a == k) = false := by simp [hp]
      by_cases h2 : a = k2
      · subst h2
        have hb : (a == a) = true := by simp
        have h2s : ¬(a = k) := hp
        simp [dictSetCount, histCount, List.find?, hbk, hb, h2s]
      · have hb : (a == k2) = false := by simp [h2]
        simp only [dictSetCount, hbk, if_false, Bool.false_eq_true]
        simp only [histCount, List.find?, hb]
        simpa [histCount] using ih

/-- The pure set-insert performed by setAdd on a hashable value. -/
def setInsert (s : List PyVal) (v : PyVal) : List PyVal :=
  if s.any (fun x => x == v) then s else s ++ [v]

lemma setAdd_ok (s : List PyVal) (v : PyVal) (hv : pyHashable v = true) :
    setAdd s v = .ok (setInsert s v) := by
  simp [setAdd, setInsert, hv]

lemma setInsert_nodup_toFinset (s : List PyVal) (v : PyVal) (hs : s.Nodup) :
    (setInsert s v).Nodup ∧ (setInsert s v).toFinset = insert v s.toFinset := by
  by_cases hmem : v ∈ s
  · have hany : s.any (fun x => x == v) = true := by
      rw [List.any_eq_true]
      exact ⟨v, hmem, by simp⟩
    refine ⟨by simp [setInsert, hany, hs], ?_⟩
    simp [setInsert, hany]
    exact (Finset.insert_eq_self.mpr (List.mem_toFinset.mpr hmem)).symm
  · have hany : s.any (fun x => x == v) = false := by
      rw [List.any_eq_false]
      intro x hx
      simp only [beq_iff_eq]
      intro hxv
      exact hmem (hxv ▸ hx)
    constructor
    · rw [setInsert, hany]
      simp only [Bool.false_eq_true, if_false]
      rw [List.nodup_append]
      exact ⟨hs, by simp, by simp [List.disjoint_singleton]; intro hh; exact hmem hh⟩
    · rw [setInsert, hany]
      simp only [Bool.false_eq_true, if_false]
      simp [List.toFinset_append, Finset.union_comm, Finset.insert_eq]

lemma statsStep_ok (acc acc2 : StatsAcc) (en : RecentEntry)
    (h : statsStep acc en = .ok acc2) :
    acc2.event_types =
      dictSetCount acc.event_types (typeOfEntry en)
        (histCount acc.event_types (typeOfEntry en) + 1) ∧
    acc2.track_events =
      (if typeOfEntry en == .str "track" then
        dictSetCount acc.track_events (trackNameOfEntry en)
          (histCount acc.track_events (trackNameOfEntry en) + 1)
      else acc.track_events) ∧
    acc2.users =
      (if truthy (userIdOfEntry en) then setInsert acc.users (userIdOfEntry en)
       else acc.users) := by
  simp only [statsStep, histAdd, setAdd, Bind.bind, Except.bind, Pure.pure,
    Except.pure] at h
  split_ifs at h
  all_goals try cases h
  all_goals simp_all [typeOfEntry, trackNameOfEntry, userIdOfEntry, setInsert]

lemma statsLoop_invariant :
    ∀ (buf : List RecentEntry) (acc res : StatsAcc), statsLoop buf acc = .ok res →
      (∀ k, histCount res.event_types k =
        histCount acc.event_types k + (buf.map typeOfEntry).count k) ∧
      (∀ k, histCount res.track_events k =
        histCount acc.track_events k +
          ((buf.filter (fun en => typeOfEntry en == .str "track")).map
            trackNameOfEntry).count k) ∧
      (acc.users.Nodup →
        res.users.Nodup ∧
        res.users.toFinset =
          acc.users.toFinset ∪
            ((buf.map userIdOfEntry).filter (fun v => truthy v)).toFinset) := by
  intro buf
  induction buf with
  | nil =>
    intro acc res h
    simp only [statsLoop, List.foldlM_nil] at h
    obtain rfl : acc = res := by simpa [Pure.pure, Except.pure] using h
    simp
  | cons en t ih =>
    intro acc res h
    simp only [statsLoop, List.foldlM_cons, Bind.bind, Except.bind] at h
    cases hstep : statsStep acc en with
    | error e =>
      rw [hstep] at h
      cases h
    | ok acc1 =>
      rw [hstep] at h
      obtain ⟨he, ht, hu⟩ := statsStep_ok acc acc1 en hstep
      obtain ⟨ih1, ih2, ih3⟩ := ih acc1 res h
      refine ⟨?_, ?_, ?_⟩
      · intro k
        rw [ih1 k, he, histCount_dictSetCount]
        simp only [List.map_cons, List.count_cons, beq_iff_eq]
        by_cases hk : typeOfEntry en = k
        · have hk2 : k = typeOfEntry en := hk.symm
          simp [hk2]
          omega
        · have hk2 : ¬(k = typeOfEntry en) := fun hh => hk hh.symm
          simp [hk, hk2]
      · intro k
        rw [ih2 k, ht]
        simp only [List.filter_cons]
        by_cases htrk : (typeOfEntry en == PyVal.str "track") = true
        · rw [if_pos htrk, if_pos htrk]
          rw [histCount_dictSetCount]
          simp only [List.map_cons, List.count_cons, beq_iff_eq]
          by_cases hk : trackNameOfEntry en = k
          · have hk2 : k = trackNameOfEntry en := hk.symm
            simp [hk2]
            omega
          · have hk2 : ¬(k = trackNameOfEntry en) := fun hh => hk hh.symm
            simp [hk, hk2]
        · rw [if_neg htrk, if_neg htrk]
      · intro hnod
        have hacc1 : acc1.users.Nodup ∧ acc1.users.toFinset =
            (if truthy (userIdOfEntry en) then
              insert (userIdOfEntry en) acc.users.toFinset
             else acc.users.toFinset) := by
          rw [hu]
          by_cases htr : truthy (userIdOfEntry en)
          · simp only [htr, if_true]
            exact setInsert_nodup_toFinset acc.users _ hnod
          · simp only [htr, Bool.false_eq_true, if_false]
            exact ⟨hnod, trivial⟩
        obtain ⟨hn1, hf1⟩ := hacc1
        obtain ⟨hn2, hf2⟩ := ih3 hn1
        refine ⟨hn2, ?_⟩
        rw [hf2, hf1]
        simp only [List.map_cons, List.filter_cons]
        by_cases htr : truthy (userIdOfEntry en)
        · simp only [htr, if_true, List.toFinset_cons, Finset.insert_union,
            Finset.union_insert]
        · simp only [htr, Bool.false_eq_true, if_false]

/-- The four-event buffer of the C9 example: track/A, track/A, identify,
track/B with two distinct userIds. -/
def statsExampleBuffer : List RecentEntry :=
  [⟨"r1", [("type", .str "track"), ("event", .str "A"), ("userId", .str "u1")]⟩,
   ⟨"r2", [("type", .str "track"), ("event", .str "A"), ("userId", .str "u1")]⟩,
   ⟨"r3", [("type", .str "identify"), ("userId", .str "u2")]⟩,
   ⟨"r4", [("type", .str "track"), ("event", .str "B"), ("userId", .str "u2")]⟩]

/-- C9: the empty buffer yields the distinguished empty-stats response, not
an error; a non-error stats response reports the total event count, the
number of distinct truthy userId values, the histogram of type values, and
the histogram of track event names over events of type track; and the
concrete 4-event example yields exactly the claimed histograms and counts. -/
theorem stats_content_correct :
    (∀ nowIso : String, get_webhook_stats [] nowIso = .ok (.empty nowIso)) ∧
    (∀ (buf : List RecentEntry) (nowIso : String) (t u : Nat)
        (ets ens : List (PyVal × Nat)) (f l ts : String),
      get_webhook_stats buf nowIso = .ok (.stats t u ets ens f l ts) →
      t = buf.length ∧
      u = ((buf.map userIdOfEntry).filter (fun v => truthy v)).toFinset.card ∧
      (∀ k, histCount ets k = (buf.map typeOfEntry).count k) ∧
      (∀ k, histCount ens k =
        ((buf.filter (fun en => typeOfEntry en == .str "track")).map
          trackNameOfEntry).count k)) ∧
    get_webhook_stats statsExampleBuffer "r0" =
      .ok (.stats 4 2 [(.str "track", 3), (.str "identify", 1)]
        [(.str "A", 2), (.str "B", 1)] "r1" "r4" "r0") := by
  refine ⟨fun nowIso => rfl, ?_, by decide⟩
  intro buf nowIso t u ets ens f l ts h
  unfold get_webhook_stats at h
  by_cases hemp : buf.isEmpty
  · rw [if_pos hemp] at h
    simp at h
  · rw [if_neg hemp] at h
    cases hloop : statsLoop buf ⟨[], [], []⟩ with
    | error e =>
      rw [hloop] at h
      cases h
    | ok acc =>
      rw [hloop] at h
      obtain ⟨h1, h2, h3⟩ := statsLoop_invariant buf ⟨[], [], []⟩ acc hloop
      obtain ⟨hnod, hfin⟩ := h3 (by simp)
      have hinj := Except.ok.inj h
      injection hinj with e1 e2 e3 e4 e5 e6 e7
      refine ⟨e1.symm, ?_, ?_, ?_⟩
      · rw [← e2, ← List.toFinset_card_of_nodup hnod, hfin]
        simp
      · intro k
        rw [← e3, h1 k]
        simp [histCount]
      · intro k
        rw [← e4, h2 k]
        simp [histCount]

/-- Witness for C9: the general component applied at the concrete example
buffer. -/
theorem stats_content_correct_witness :
    4 = statsExampleBuffer.length ∧
    2 = ((statsExampleBuffer.map userIdOfEntry).filter (fun v => truthy v)).toFinset.card ∧
    (∀ k, histCount [(.str "track", 3), (.str "identify", 1)] k =
      (statsExampleBuffer.map typeOfEntry).count k) ∧
    (∀ k, histCount [(.str "A", 2), (.str "B", 1)] k =
      ((statsExampleBuffer.filter (fun en => typeOfEntry en == .str "track")).map
        trackNameOfEntry).count k) :=
  stats_content_correct.2.1 statsExampleBuffer "r0" 4 2
    [(.str "track", 3), (.str "identify", 1)] [(.str "A", 2), (.str "B", 1)]
    "r1" "r4" "r0" (by decide)

/- ### C1: session attribution -/

/-- One track event of the C1 scenario, carrying session id S1. -/
def c1Event (ts uid en : String) : Event :=
  [("type", .str "track"), ("event", .str en), ("userId", .str uid),
   ("timestamp", .str ts), ("properties", .dict [("session_id", .str "S1")])]

/-- The C1 buffer: three S1 events with timestamps T1 < T2 < T3 inserted in
arrival order T2, T1, T3; u1 is the userId of the T1 event, u2 of the T2
event (the first inserted), u3 of the T3 event. -/
def c1Buffer (u1 u2 u3 : String) : List RecentEntry :=
  [⟨"r1", c1Event "2024-01-01T10:05:00Z" u2 "E2"⟩,
   ⟨"r2", c1Event "2024-01-01T10:00:00Z" u1 "E1"⟩,
   ⟨"r3", c1Event "2024-01-01T10:30:00Z" u3 "E3"⟩]

/-- Counterexample to C1 as stated: with userIds alice (T1 event), bob (T2
event, the one inserted first) and carol (T3 event), the produced summary
attributes the session to alice — the first event of the timestamp-sorted
member list — and not to bob, the event inserted first into the buffer. -/
theorem session_attribution_counterexample :
    (get_sessions_analysis (c1Buffer "alice" "bob" "carol") "now").map
        (fun r => r.sessions.map (fun s => s.user_id)) = .ok [.str "alice"] ∧
    PyVal.str "alice" ≠ PyVal.str "bob" := by
  decide

/-- Amended C1: the summary attribution fields (userId, anonymousId, and the
device fields) are taken from the first event of the timestamp-sorted member
list, not from the event inserted first: for three S1 events with timestamps
T1 < T2 < T3 inserted in order T2, T1, T3, the member list is ordered T1,
T2, T3, the attributed userId is that of the T1 event, and durationMinutes
is the minute difference between T1 and T3 (here 30.0 minutes, stored in
tenths). -/
theorem session_attribution_is_postsort (u1 u2 u3 : String) (nowIso : String) :
    get_sessions_analysis (c1Buffer u1 u2 u3) nowIso =
      .ok ⟨1,
        [{ session_id := .str "S1"
         , user_id := .str u1
         , anonymous_id := .none
         , device_model := .none
         , os_version := .none
         , timezone := .none
         , network := .dict []
         , events := [⟨.str "E1", .str "2024-01-01T10:00:00Z", .none⟩,
                      ⟨.str "E2", .str "2024-01-01T10:05:00Z", .none⟩,
                      ⟨.str "E3", .str "2024-01-01T10:30:00Z", .none⟩]
         , total_events := 3
         , duration := 300
         , first_event_time := .str "2024-01-01T10:00:00Z"
         , last_event_time := .str "2024-01-01T10:30:00Z" }],
        nowIso⟩ := rfl

/- ### C10: totalSessions counts every resolvable session id -/

/-- The session id under which the grouping loop files a buffered entry,
when it files it at all: the extraction must succeed with a truthy, hashable
value and the record must build without an exception. -/
def sidOf (en : RecentEntry) : Option PyVal :=
  match extract_session_id en.data with
  | .error _ => Option.none
  | .ok sid =>
    if truthy sid then
      if pyHashable sid then
        match mkSessionEvent en.data sid with
        | .ok _ => some sid
        | .error _ => Option.none
      else Option.none
    else Option.none

lemma sessionStep_ok_cases (gs gs2 : SessionGroups) (en : RecentEntry)
    (h : sessionStep gs en = .ok gs2) :
    (sidOf en = Option.none ∧ gs2 = gs) ∨
    (∃ sid ev, sidOf en = some sid ∧ gs2 = addToGroups gs sid ev) := by
  simp only [sessionStep, Bind.bind, Except.bind, Pure.pure, Except.pure] at h
  cases hex : extract_session_id en.data with
  | error e =>
    rw [hex] at h
    cases h
  | ok sid =>
    rw [hex] at h
    by_cases htr : truthy sid
    · simp only [htr, if_true] at h
      by_cases hha : pyHashable sid
      · simp only [hha, if_true] at h
        cases hmk : mkSessionEvent en.data sid with
        | error e =>
          rw [hmk] at h
          cases h
        | ok ev =>
          rw [hmk] at h
          right
          exact ⟨sid, ev, by simp [sidOf, hex, htr, hha, hmk],
            (Except.ok.inj h).symm⟩
      · simp only [hha, Bool.false_eq_true, if_false] at h
        cases h
    · simp only [htr, Bool.false_eq_true, if_false] at h
      left
      exact ⟨by simp [sidOf, hex, htr], (Except.ok.inj h).symm⟩

lemma keys_addToGroups (gs : SessionGroups) (sid : PyVal) (ev : SessionEvent) :
    (addToGroups gs sid ev).map Prod.fst =
      if sid ∈ gs.map Prod.fst then gs.map Prod.fst
      else gs.map Prod.fst ++ [sid] := by
  unfold addToGroups
  by_cases hmem : sid ∈ gs.map Prod.fst
  · have hany : gs.any (fun g => g.1 == sid) = true := by
      rw [List.any_eq_true]
      obtain ⟨p, hp, hps⟩ := List.mem_map.mp hmem
      exact ⟨p, hp, by simp [hps]⟩
    rw [if_pos hany, if_pos hmem, List.map_map]
    apply List.map_congr_left
    intro g hg
    simp only [Function.comp_apply]
    split <;> rfl
  · have hany : gs.any (fun g => g.1 == sid) = false := by
      rw [List.any_eq_false]
      intro g hg
      simp only [beq_iff_eq]
      intro hgs
      exact hmem (List.mem_map.mpr ⟨g, hg, hgs⟩)
    rw [if_neg (by simp [hany]), if_neg hmem]
    simp

lemma groupFold_keys :
    ∀ (buf : List RecentEntry) (gs res : SessionGroups),
      List.foldlM sessionStep gs buf = .ok res →
      (gs.map Prod.fst).Nodup →
      (res.map Prod.fst).Nodup ∧
      (res.map Prod.fst).toFinset =
        (gs.map Prod.fst).toFinset ∪ (buf.filterMap sidOf).toFinset := by
  intro buf
  induction buf with
  | nil =>
    intro gs res h hnod
    simp only [List.foldlM_nil] at h
    obtain rfl : gs = res := by simpa [Pure.pure, Except.pure] using h
    simp [hnod]
  | cons en t ih =>
    intro gs res h hnod
    simp only [List.foldlM_cons, Bind.bind, Except.bind] at h
    cases hstep : sessionStep gs en with
    | error e =>
      rw [hstep] at h
      cases h
    | ok gs1 =>
      rw [hstep] at h
      rcases sessionStep_ok_cases gs gs1 en hstep with ⟨hnone, heq⟩ | ⟨sid, ev, hsid, heq⟩
      · subst heq
        obtain ⟨hn, hf⟩ := ih gs1 res h hnod
        refine ⟨hn, ?_⟩
        rw [hf]
        simp [List.filterMap_cons, hnone]
      · subst heq
        have hkeys := keys_addToGroups gs sid ev
        by_cases hmem : sid ∈ gs.map Prod.fst
        · have hkeq : (addToGroups gs sid ev).map Prod.fst = gs.map Prod.fst := by
            rw [hkeys, if_pos hmem]
          obtain ⟨hn, hf⟩ := ih _ res h (hkeq ▸ hnod)
          refine ⟨hn, ?_⟩
          rw [hf, hkeq]
          rw [List.filterMap_cons, hsid]
          rw [List.toFinset_cons, Finset.union_insert]
          rw [Finset.insert_eq_self.mpr]
          exact Finset.mem_union_left _ (List.mem_toFinset.mpr hmem)
        · have hkeq : (addToGroups gs sid ev).map Prod.fst = gs.map Prod.fst ++ [sid] := by
            rw [hkeys, if_neg hmem]
          have hnod1 : ((addToGroups gs sid ev).map Prod.fst).Nodup := by
            rw [hkeq, List.nodup_append]
            exact ⟨hnod, by simp, by
              intro x hx hxs
              simp only [List.mem_singleton] at hxs
              exact hmem (hxs ▸ hx)⟩
          obtain ⟨hn, hf⟩ := ih _ res h hnod1
          refine ⟨hn, ?_⟩
          rw [hf, hkeq]
          rw [List.filterMap_cons, hsid]
          rw [List.toFinset_append]
          rw [Finset.union_assoc]
          congr 1
          simp [Finset.insert_eq]

lemma length_insertSorted (le : α → α → Bool) (x : α) :
    ∀ l : List α, (insertSorted le x l).length = l.length + 1 := by
  intro l
  induction l with
  | nil => rfl
  | cons y ys ih =>
    unfold insertSorted
    split
    · simp [ih]
    · simp

lemma length_pySort (le : α → α → Bool) (l : List α) :
    (pySort le l).length = l.length := by
  unfold pySort
  suffices hgen : ∀ (acc : List α),
      (l.foldl (fun a x => insertSorted le x a) acc).length = acc.length + l.length by
    simpa using hgen []
  induction l with
  | nil => intro acc; simp
  | cons y ys ih =>
    intro acc
    simp only [List.foldl_cons]
    rw [ih (insertSorted le y acc), length_insertSorted]
    simp only [List.length_cons]
    omega

/-- C10: a non-error sessions response reports as totalSessions the number
of distinct resolvable session ids of the whole buffer — computed before
truncation — while the sessions listing itself is cut to at most 20 entries:
its length is min 20 totalSessions, so for more than 20 sessions the listing
has exactly 20 entries but totalSessions still reports the full count. -/
theorem total_sessions_counts_all_resolvable :
    ∀ (buf : List RecentEntry) (nowIso : String) (resp : SessionsResponse),
      get_sessions_analysis buf nowIso = .ok resp →
      resp.total_sessions = (buf.filterMap sidOf).toFinset.card ∧
      resp.sessions.length = min 20 resp.total_sessions ∧
      (20 < resp.total_sessions → resp.sessions.length = 20) := by
  intro buf nowIso resp h
  unfold get_sessions_analysis at h
  cases hg : groupSessions buf with
  | error e =>
    rw [hg] at h
    cases h
  | ok gs =>
    rw [hg] at h
    obtain rfl := (Except.ok.inj h).symm
    obtain ⟨hn, hf⟩ := groupFold_keys buf [] gs (by simpa [groupSessions] using hg) (by simp)
    have hcard : gs.length = (buf.filterMap sidOf).toFinset.card := by
      have hlm : (gs.map Prod.fst).length = gs.length := List.length_map _ _
      rw [← hlm, ← List.toFinset_card_of_nodup hn, hf]
      simp
    refine ⟨?_, ?_, ?_⟩
    · simpa [List.length_map] using hcard
    · simp only [List.length_take, length_pySort, List.length_map]
    · intro h20
      simp only [List.length_take, length_pySort, List.length_map] at h20 ⊢
      omega

/-- The one-entry buffer of the C10 witness. -/
def c10Buffer : List RecentEntry :=
  [⟨"r1", [("properties", .dict [("session_id", .str "S1")])]⟩]

/-- The response the sessions endpoint computes on c10Buffer. -/
def c10Resp : SessionsResponse :=
  ⟨1, [{ session_id := .str "S1", user_id := .none, anonymous_id := .none,
         device_model := .none, os_version := .none, timezone := .none,
         network := .dict [], events := [⟨.str "unknown", .str "", .none⟩],
         total_events := 1, duration := 0, first_event_time := .str "",
         last_event_time := .str "" }], "n"⟩

/-- Witness for C10: the theorem applied at a concrete buffer and its
concrete response. -/
theorem total_sessions_counts_all_resolvable_witness :
    c10Resp.total_sessions = (c10Buffer.filterMap sidOf).toFinset.card ∧
    c10Resp.sessions.length = min 20 c10Resp.total_sessions ∧
    (20 < c10Resp.total_sessions → c10Resp.sessions.length = 20) :=
  total_sessions_counts_all_resolvable c10Buffer "n" c10Resp (by decide)
